import Mathlib

/-!
# Prognos backend — settlement engine, formalised

Shallow embedding of the reward/settlement code of the prognos backend
(`src/services/rewardService.ts`, `src/services/poolResolutionService.ts`,
routed through `src/routes/pools.ts`).  JavaScript numbers are modelled as
exact rationals extended with the non-finite values `NaN`, `+Infinity`
and `-Infinity` (type `JSNum`); the persistent store is a list of pools,
each holding its predictions, and every fallible service method returns
`Except` paired with the (possibly updated) store.
-/

namespace Prognos

/-- A JavaScript number: `NaN`, the two infinities, or an exact rational.
Finite values are kept exact (no floating-point rounding). -/
inductive JSNum where
  | nan : JSNum
  | inf : JSNum
  | ninf : JSNum
  | num : ℚ → JSNum
  deriving Repr, DecidableEq

/-- JavaScript addition on the modelled numbers: `NaN` is absorbing and
opposite infinities cancel to `NaN`. -/
def jsAdd : JSNum → JSNum → JSNum
  | .nan, _ => .nan
  | _, .nan => .nan
  | .inf, .ninf => .nan
  | .ninf, .inf => .nan
  | .inf, _ => .inf
  | _, .inf => .inf
  | .ninf, _ => .ninf
  | _, .ninf => .ninf
  | .num a, .num b => .num (a + b)

/-- Multiplication of a JavaScript number by a strictly positive rational
(every call site multiplies by a stake or weight that is `> 0`). -/
def jsMulPos : JSNum → ℚ → JSNum
  | .nan, _ => .nan
  | .inf, _ => .inf
  | .ninf, _ => .ninf
  | .num a, q => .num (a * q)

/-- Division of a JavaScript number by a strictly positive rational. -/
def jsDivPos : JSNum → ℚ → JSNum
  | .nan, _ => .nan
  | .inf, _ => .inf
  | .ninf, _ => .ninf
  | .num a, q => .num (a / q)

/-- The JavaScript comparison `x > 0` (false on `NaN`). -/
def jsGtZero : JSNum → Bool
  | .nan => false
  | .inf => true
  | .ninf => false
  | .num a => decide (0 < a)

/-- Model of `Math.round`: round half toward positive infinity; `NaN` and the
infinities pass through. -/
def jsRound : JSNum → JSNum
  | .nan => .nan
  | .inf => .inf
  | .ninf => .ninf
  | .num a => .num (⌊a + 1/2⌋ : ℤ)

/-- Model of `Math.max(0, Math.min(100, x))`: clamp to `[0,100]`; `NaN` propagates
through both `Math.min` and `Math.max`. -/
def jsClamp0to100 : JSNum → JSNum
  | .nan => .nan
  | .inf => .num 100
  | .ninf => .num 0
  | .num a => .num (max 0 (min 100 a))

/-! ## The `parseFloat` model

`parseFloat` skips leading whitespace, accepts an optional sign, then the
longest prefix that is either the literal `Infinity` or a decimal mantissa
with an optional exponent; when no digit is found it returns `NaN`. -/

/-- Whitespace characters skipped by `parseFloat`. -/
def isJsWhitespace (c : Char) : Bool :=
  c = ' ' || c = '\t' || c = '\n' || c = '\r'

/-- Split off the longest prefix of decimal digits. -/
def leadingDigits : List Char → List Char × List Char
  | [] => ([], [])
  | c :: cs =>
    if c.isDigit then
      let (d, r) := leadingDigits cs
      (c :: d, r)
    else
      ([], c :: cs)

/-- Decimal value of a digit string. -/
def digitsToNat (ds : List Char) : ℕ :=
  ds.foldl (fun a c => a * 10 + (c.toNat - 48)) 0

/-- Parse the mantissa `digits [. digits]` / `. digits`; `none` when no
digit is present (the `NaN` case). Returns the value and the rest. -/
def parseMantissa (cs : List Char) : Option (ℚ × List Char) :=
  let (ip, r1) := leadingDigits cs
  match r1 with
  | '.' :: r2 =>
    let (fp, r3) := leadingDigits r2
    if ip.isEmpty && fp.isEmpty then none
    else some ((digitsToNat ip : ℚ) + (digitsToNat fp : ℚ) / (10 : ℚ) ^ fp.length, r3)
  | _ => if ip.isEmpty then none else some ((digitsToNat ip : ℚ), r1)

/-- Parse the optional exponent `[eE][+-]?digits`; an incomplete exponent
contributes nothing (JavaScript backtracks over it). -/
def parseExponent : List Char → ℤ
  | c :: r =>
    if c = 'e' || c = 'E' then
      match r with
      | '+' :: r2 => (match leadingDigits r2 with
        | ([], _) => 0
        | (ds, _) => (digitsToNat ds : ℤ))
      | '-' :: r2 => (match leadingDigits r2 with
        | ([], _) => 0
        | (ds, _) => -(digitsToNat ds : ℤ))
      | r2 => (match leadingDigits r2 with
        | ([], _) => 0
        | (ds, _) => (digitsToNat ds : ℤ))
    else 0
  | [] => 0

/-- The global `parseFloat`, on the exact-rational model of numbers. -/
def jsParseFloat (s : String) : JSNum :=
  let cs := s.data.dropWhile isJsWhitespace
  let sgnAndRest : Bool × List Char :=
    match cs with
    | '-' :: r => (true, r)
    | '+' :: r => (false, r)
    | r => (false, r)
  let neg := sgnAndRest.1
  let cs2 := sgnAndRest.2
  if cs2.take 8 = "Infinity".data then
    if neg then .ninf else .inf
  else
    match parseMantissa cs2 with
    | none => .nan
    | some (m, rest) =>
      let v : ℚ := m * (10 : ℚ) ^ (parseExponent rest)
      .num (if neg then -v else v)

/-! ## ScoringEngine (`RewardService` pure helpers) -/

/-- The method `RewardService.calculateScore`: `1 / (|p − o| + 1)` (linear loss). -/
def calculateScore (predictionValue outcomeValue : ℚ) : ℚ :=
  1 / (|predictionValue - outcomeValue| + 1)

/-- The method `RewardService.calculateQuadraticScore`: `1 / (d·d + 1)` with
`d = |p − o|`. -/
def calculateQuadraticScore (predictionValue outcomeValue : ℚ) : ℚ :=
  let distance := |predictionValue - outcomeValue|
  1 / (distance * distance + 1)

/-- Model of `toLowerCase`, given on the ASCII range (the code only ever
compares the lowered string against the ASCII literals `"yes"`/`"no"`). -/
def jsToLowerCase (s : String) : String :=
  ⟨s.data.map (fun c => if 'A' ≤ c ∧ c ≤ 'Z' then Char.ofNat (c.toNat + 32) else c)⟩

/-- The method `RewardService.parseNumericPrediction`: `"yes"` ↦ 100, `"no"` ↦ 0
(case-insensitive), anything else goes through `parseFloat` — including
its silent `NaN` result on unparseable input. -/
def parseNumericPrediction (predictionValue : String) : JSNum :=
  if jsToLowerCase predictionValue = "yes" then .num 100
  else if jsToLowerCase predictionValue = "no" then .num 0
  else jsParseFloat predictionValue

/-- Score of a raw (already parsed) prediction value against a finite
outcome: finite values use the selected scoring formula, `NaN` propagates,
and an infinite prediction is at infinite distance, so its reciprocal
score collapses to `0` under either formula. -/
def scoreOfJS (v : JSNum) (outcomeValue : ℚ) (useQuadraticScoring : Bool) : JSNum :=
  match v with
  | .nan => .nan
  | .inf => .num 0
  | .ninf => .num 0
  | .num p => .num (if useQuadraticScoring
      then calculateQuadraticScore p outcomeValue
      else calculateScore p outcomeValue)

/-! ## Data model (Prisma schema `pools` / `predictions`) -/

/-- A `predictions` row: raw string prediction, stake, and the claim
bookkeeping written at resolution. -/
structure Prediction where
  id : String
  userWalletAddress : String
  predictionValue : String
  stakeAmount : ℚ
  claimableReward : Option ℚ
  claimed : Bool
  deriving Repr, DecidableEq

/-- A `pools` row together with its child predictions. -/
structure Pool where
  id : String
  title : String
  totalStake : ℚ
  deadline : ℤ
  outcomeValue : Option ℚ
  isResolved : Bool
  predictions : List Prediction
  deriving Repr, DecidableEq

/-- The persistent store: the list of pools (each owning its predictions). -/
abbrev DB := List Pool

/-- The distinct failures thrown by `RewardService.resolvePool`. -/
inductive RewardError where
  | invalidOutcome
  | notFound
  | alreadyResolved
  deriving Repr, DecidableEq

/-- The query `db.pool.findUnique({ where: { id }, include: { predictions } })`. -/
def findPool (db : DB) (poolId : String) : Option Pool :=
  db.find? (fun pl => pl.id == poolId)

/-- The update `db.pool.update { where: { id } }`: rewrite the matching pool. -/
def updatePool (db : DB) (poolId : String) (f : Pool → Pool) : DB :=
  db.map (fun pl => if pl.id == poolId then f pl else pl)

/-- The update `db.prediction.update({ where: { id }, data: { claimableReward } })`
restricted to one pool's prediction list. -/
def updateReward (preds : List Prediction) (predId : String) (r : ℚ) :
    List Prediction :=
  preds.map (fun p => if p.id == predId then { p with claimableReward := some r } else p)

/-! ## SettlementCoordinator (`RewardService.resolvePool`)

The TypeScript method performs all of its validation (outcome range, pool
lookup, `isResolved` check) before any write; we model it as a read phase
producing the pool snapshot and a write phase applying the updates, and the
sequential `resolvePool` as their composition. -/

/-- One entry of the `results` array built in the scoring loop. -/
structure PredictionResult where
  prediction : Prediction
  score : JSNum
  weighted : JSNum
  deriving Repr, DecidableEq

/-- The scoring loop over a pool's predictions: skip unstaked rows,
parse, score, accumulate `totalWeighted` and collect the results. -/
def resolveStaked (predictions : List Prediction) (outcomeValue : ℚ)
    (useQuadraticScoring : Bool) : JSNum × List PredictionResult :=
  predictions.foldl
    (fun acc p =>
      if p.stakeAmount ≤ 0 then acc
      else
        let np := parseNumericPrediction p.predictionValue
        let score := scoreOfJS np outcomeValue useQuadraticScoring
        let weighted := jsMulPos score p.stakeAmount
        (jsAdd acc.1 weighted, acc.2 ++ [⟨p, score, weighted⟩]))
    (.num 0, [])

/-- The reward-writing loop: when `totalWeighted > 0`, each collected
result's prediction receives `(weighted / totalWeighted) × totalStake`.
A result with a non-finite `weighted` cannot occur alongside a finite
`totalWeighted` (`NaN` is absorbing in the sum), so those rows are
returned untouched. -/
def applyRewards (preds : List Prediction) (results : List PredictionResult)
    (totalWeighted : JSNum) (totalStake : ℚ) : List Prediction :=
  if jsGtZero totalWeighted then
    match totalWeighted with
    | .num t =>
      results.foldl
        (fun acc r =>
          match r.weighted with
          | .num w => updateReward acc r.prediction.id ((w / t) * totalStake)
          | _ => acc)
        preds
    | _ => preds
  else preds

/-- Validation/read phase of `resolvePool`: the outcome-range check, the
pool lookup and the `isResolved` check, in the code's order, all before
any write. -/
def resolveReadPhase (db : DB) (poolId : String) (outcomeValue : ℚ) :
    Except RewardError Pool :=
  if outcomeValue < 0 ∨ outcomeValue > 100 then .error .invalidOutcome
  else
    match findPool db poolId with
    | none => .error .notFound
    | some pool =>
      if pool.isResolved then .error .alreadyResolved
      else .ok pool

/-- Write phase of `resolvePool`, applied to the current store using the
snapshot taken by the read phase: write the rewards of the snapshot's
staked predictions, then mark the pool resolved with the given outcome. -/
def resolveWritePhase (db : DB) (snapshot : Pool) (poolId : String)
    (outcomeValue : ℚ) (useQuadraticScoring : Bool) : DB :=
  if snapshot.predictions.isEmpty then
    updatePool db poolId
      (fun pl => { pl with outcomeValue := some outcomeValue, isResolved := true })
  else
    let (totalWeighted, results) :=
      resolveStaked snapshot.predictions outcomeValue useQuadraticScoring
    let db1 := updatePool db poolId
      (fun pl => { pl with
        predictions := applyRewards pl.predictions results totalWeighted snapshot.totalStake })
    updatePool db1 poolId
      (fun pl => { pl with outcomeValue := some outcomeValue, isResolved := true })

/-- The method `RewardService.resolvePool(poolId, outcomeValue, useQuadraticScoring)`:
sequential execution, read phase then write phase on the same store. -/
def resolvePool (db : DB) (poolId : String) (outcomeValue : ℚ)
    (useQuadraticScoring : Bool) : Except RewardError Unit × DB :=
  match resolveReadPhase db poolId outcomeValue with
  | .error e => (.error e, db)
  | .ok pool => (.ok (), resolveWritePhase db pool poolId outcomeValue useQuadraticScoring)

/-! ## ClaimGate (`RewardService.checkClaimability`) -/

/-- Result of `checkClaimability`: either claimable with the stored
amount or refused with the code's literal reason string. -/
inductive ClaimCheck where
  | canClaim (claimableReward : ℚ)
  | cannot (reason : String)
  deriving Repr, DecidableEq

/-- The query `db.prediction.findFirst({ where: { poolId, userWalletAddress },
include: { pool } })`. -/
def findPrediction (db : DB) (poolId walletAddress : String) :
    Option (Pool × Prediction) :=
  match findPool db poolId with
  | none => none
  | some pl =>
    (pl.predictions.find? (fun p => p.userWalletAddress == walletAddress)).map
      (fun p => (pl, p))

/-- The method `RewardService.checkClaimability(poolId, walletAddress)`: the guard
chain of the code, in order.  The reward test models the JavaScript
`!claimableReward || claimableReward <= 0` (absent and `0` are both
falsy, and `≤ 0` covers `0` again). -/
def checkClaimability (db : DB) (poolId walletAddress : String) : ClaimCheck :=
  match findPrediction db poolId walletAddress with
  | none => .cannot "No prediction found for this user and pool"
  | some (pl, p) =>
    if !pl.isResolved then .cannot "Pool is not yet resolved"
    else if p.claimed then .cannot "Rewards already claimed"
    else if p.stakeAmount ≤ 0 then .cannot "No stake amount to claim"
    else
      match p.claimableReward with
      | none => .cannot "No rewards available"
      | some r => if r ≤ 0 then .cannot "No rewards available" else .canClaim r

/-! ## `RewardService.getRewardSummary` -/

/-- One entry of the per-prediction breakdown in the reward summary. -/
structure SummaryEntry where
  userWalletAddress : String
  predictionValue : String
  numericPrediction : JSNum
  stakeAmount : ℚ
  distance : JSNum
  score : JSNum
  weightedScore : JSNum
  claimableReward : Option ℚ
  claimed : Bool
  deriving Repr, DecidableEq

/-- The distance `|np − outcome|` on a parsed prediction value: both infinities are at
infinite distance from a finite outcome. -/
def jsDistance (v : JSNum) (outcomeValue : ℚ) : JSNum :=
  match v with
  | .nan => .nan
  | .inf => .inf
  | .ninf => .inf
  | .num p => .num |p - outcomeValue|

/-- The summary entry built for one (staked) prediction. -/
def summaryEntry (outcomeValue : ℚ) (p : Prediction) : SummaryEntry :=
  let np := parseNumericPrediction p.predictionValue
  { userWalletAddress := p.userWalletAddress
    predictionValue := p.predictionValue
    numericPrediction := np
    stakeAmount := p.stakeAmount
    distance := jsDistance np outcomeValue
    score := scoreOfJS np outcomeValue false
    weightedScore := jsMulPos (scoreOfJS np outcomeValue false) p.stakeAmount
    claimableReward := p.claimableReward
    claimed := p.claimed }

/-- Result of `getRewardSummary`: the `Pool not found` throw, the
`Pool not yet resolved` message, or the full summary. -/
inductive SummaryResult where
  | notFound
  | notYetResolved (poolId : String) (totalStake : ℚ)
  | resolved (outcomeValue : ℚ) (totalStake : ℚ)
      (predictions : List SummaryEntry) (totalWeightedScore : JSNum)
  deriving Repr, DecidableEq

/-- The method `RewardService.getRewardSummary(poolId)`: the pool is loaded with only
its `stakeAmount > 0` predictions (the Prisma `where` filter); the
breakdown maps over them and `totalWeightedScore` reduces `score × stake`
over the same filtered list. -/
def getRewardSummary (db : DB) (poolId : String) : SummaryResult :=
  match findPool db poolId with
  | none => .notFound
  | some pool =>
    let staked := pool.predictions.filter (fun p => decide (0 < p.stakeAmount))
    if !pool.isResolved then .notYetResolved pool.id pool.totalStake
    else
      match pool.outcomeValue with
      | none => .notYetResolved pool.id pool.totalStake
      | some ov =>
        .resolved ov pool.totalStake (staked.map (summaryEntry ov))
          (staked.foldl
            (fun s p =>
              jsAdd s (jsMulPos
                (scoreOfJS (parseNumericPrediction p.predictionValue) ov false)
                p.stakeAmount))
            (.num 0))

/-! ## ResolutionScheduler (`PoolResolutionService.calculateAutomaticOutcome`) -/

/-- The method `PoolResolutionService.calculateAutomaticOutcome(predictions)`: the
weighted average of the parsed predictions with weight `max(stake, 1)`,
rounded and clamped to `[0,100]`.  The empty case draws `0` or `100` at
random; the coin argument stands for that draw (`Math.random() < 0.5`). -/
def calculateAutomaticOutcome (predictions : List Prediction) (coin : Bool) : JSNum :=
  if predictions.isEmpty then
    if coin then .num 0 else .num 100
  else
    let acc := predictions.foldl
      (fun (acc : ℚ × JSNum) p =>
        let np := parseNumericPrediction p.predictionValue
        let weight := max p.stakeAmount 1
        (acc.1 + weight, jsAdd acc.2 (jsMulPos np weight)))
      (0, .num 0)
    let totalWeight := acc.1
    let weightedSum := acc.2
    jsClamp0to100 (jsRound (jsDivPos weightedSum totalWeight))

/-! ## Spec-side normalisation, for comparison with the code

The spec's `normalize` fails with `InvalidPredictionFormat` on an
unparseable value; the code's `parseNumericPrediction` instead returns
`NaN`.  The spec-side function is kept to state that divergence. -/

/-- Spec-side failure of `normalize`. -/
inductive NormalizeError where
  | invalidPredictionFormat
  deriving Repr, DecidableEq

/-- Modelled from the spec: `normalize(rawValue) -> numeric ∈ [0,100]`:
"yes"→100, "no"→0 (case-insensitive), else parse as a float; fails with
`InvalidPredictionFormat` if unparseable.  Parsing follows the same
`parseFloat` semantics as the code; a parse that yields no numeric value
is the unparseable case. -/
def normalizeSpec (rawValue : String) : Except NormalizeError ℚ :=
  if jsToLowerCase rawValue = "yes" then .ok 100
  else if jsToLowerCase rawValue = "no" then .ok 0
  else
    match jsParseFloat rawValue with
    | .num q => .ok q
    | _ => .error .invalidPredictionFormat

/-- The claim that the code's normalisation realises the spec's at one
input: the spec-side `normalize` succeeds with some numeric value and the
code returns exactly that value.  The code's `parseNumericPrediction` is
total and has no failure outcome at all, so where the spec demands an
`InvalidPredictionFormat` failure no code behaviour can match. -/
def normalizeMatchesSpecAt (rawValue : String) : Prop :=
  ∃ q : ℚ, normalizeSpec rawValue = .ok q ∧ parseNumericPrediction rawValue = .num q

/-! ## Two concurrent `resolvePool` calls (scenario D)

`resolvePool` awaits the store between its validation read and its
writes, so two concurrent calls may both run their read phase against the
same store before either write lands.  The execution below is exactly
that interleaving: both reads against the initial store, then the two
write phases in sequence. -/

/-- Both calls read before either writes: the racy interleaving the
non-transactional code admits. -/
def resolvePoolRaced (db : DB) (poolId : String) (outcomeValue : ℚ)
    (useQuadraticScoring : Bool) :
    Except RewardError Unit × Except RewardError Unit × DB :=
  match resolveReadPhase db poolId outcomeValue,
        resolveReadPhase db poolId outcomeValue with
  | .ok p1, .ok p2 =>
    (.ok (), .ok (),
      resolveWritePhase (resolveWritePhase db p1 poolId outcomeValue useQuadraticScoring)
        p2 poolId outcomeValue useQuadraticScoring)
  | .ok p1, .error e =>
    (.ok (), .error e, resolveWritePhase db p1 poolId outcomeValue useQuadraticScoring)
  | .error e, .ok p2 =>
    (.error e, .ok (), resolveWritePhase db p2 poolId outcomeValue useQuadraticScoring)
  | .error e1, .error e2 => (.error e1, .error e2, db)

/-! ## Derived definitions used by the verification -/

/-- The scoring formula selected by the `useQuadraticScoring` flag, on
finite values. -/
def scoreQ (p o : ℚ) (useQuadraticScoring : Bool) : ℚ :=
  if useQuadraticScoring then calculateQuadraticScore p o else calculateScore p o

/-- The staked predictions of a list, in order — the rows the scoring
loop of `resolvePool` does not skip. -/
def stakedOf (predictions : List Prediction) : List Prediction :=
  predictions.filter (fun p => decide (0 < p.stakeAmount))

/-- The `results` entry the scoring loop builds for one staked row. -/
def entryOf (outcomeValue : ℚ) (useQuadraticScoring : Bool) (p : Prediction) :
    PredictionResult :=
  { prediction := p
    score := scoreOfJS (parseNumericPrediction p.predictionValue) outcomeValue useQuadraticScoring
    weighted := jsMulPos
      (scoreOfJS (parseNumericPrediction p.predictionValue) outcomeValue useQuadraticScoring)
      p.stakeAmount }

/-- The effect of one reward write on one stored prediction row. -/
def rewardUpd (t totalStake : ℚ) (r : PredictionResult) (p : Prediction) : Prediction :=
  match r.weighted with
  | .num w =>
    if p.id == r.prediction.id then { p with claimableReward := some ((w / t) * totalStake) }
    else p
  | _ => p

/-! ## Concrete fixtures (sample stores used to exercise the theorems) -/

/-- A resolved pool with no predictions. -/
def poolResolvedW : Pool :=
  { id := "pw-res", title := "resolved", totalStake := 0, deadline := 0,
    outcomeValue := some 40, isResolved := true, predictions := [] }

/-- An open pool with no predictions. -/
def poolOpenW : Pool :=
  { id := "pw-open", title := "open", totalStake := 0, deadline := 0,
    outcomeValue := none, isResolved := false, predictions := [] }

/-- A resolved pool holding an earlier reward, for the idempotence check. -/
def poolC7W : Pool :=
  { id := "pw7", title := "resolved with reward", totalStake := 3, deadline := 0,
    outcomeValue := some 80, isResolved := true,
    predictions :=
      [ { id := "pw7-a", userWalletAddress := "w7", predictionValue := "yes",
          stakeAmount := 3, claimableReward := some 3, claimed := false } ] }

/-- An unstaked prediction that nevertheless holds a positive stored
reward, on a resolved pool. -/
def predNoStakeC6 : Prediction :=
  { id := "p6", userWalletAddress := "w6", predictionValue := "yes",
    stakeAmount := 0, claimableReward := some 7, claimed := false }

/-- The resolved pool owning `predNoStakeC6`. -/
def poolC6 : Pool :=
  { id := "pool6", title := "resolved, unstaked reward", totalStake := 0, deadline := 0,
    outcomeValue := some 50, isResolved := true, predictions := [predNoStakeC6] }

/-- A staked, unclaimed prediction with a positive stored reward. -/
def predClaimableC6 : Prediction :=
  { id := "p6c", userWalletAddress := "w6c", predictionValue := "no",
    stakeAmount := 2, claimableReward := some 5, claimed := false }

/-- The resolved pool owning `predClaimableC6`. -/
def poolClaimableC6 : Pool :=
  { id := "pool6c", title := "resolved, claimable", totalStake := 2, deadline := 0,
    outcomeValue := some 0, isResolved := true, predictions := [predClaimableC6] }

/-- An unstaked `"yes"` vote, for the scheduler-fallback computation. -/
def predVoteC8 : Prediction :=
  { id := "p8", userWalletAddress := "w8", predictionValue := "yes",
    stakeAmount := 0, claimableReward := none, claimed := false }

/-- A staked prediction that matched the outcome exactly. -/
def predStakedC10 : Prediction :=
  { id := "p10s", userWalletAddress := "w10s", predictionValue := "yes",
    stakeAmount := 2, claimableReward := some 2, claimed := false }

/-- An unstaked prediction on the same pool, holding a stray reward. -/
def predNoStakeC10 : Prediction :=
  { id := "p10u", userWalletAddress := "w10u", predictionValue := "no",
    stakeAmount := 0, claimableReward := some 9, claimed := false }

/-- A resolved pool mixing one staked and one unstaked prediction. -/
def poolMixedC10 : Pool :=
  { id := "p10", title := "mixed", totalStake := 2, deadline := 0,
    outcomeValue := some 100, isResolved := true,
    predictions := [predStakedC10, predNoStakeC10] }

/-- A staked prediction for the frame-effect fixture. -/
def predStakedC4 : Prediction :=
  { id := "p4s", userWalletAddress := "w4s", predictionValue := "yes",
    stakeAmount := 1, claimableReward := none, claimed := false }

/-- An unstaked prediction on the same pool. -/
def predNoStakeC4 : Prediction :=
  { id := "p4u", userWalletAddress := "w4u", predictionValue := "no",
    stakeAmount := 0, claimableReward := none, claimed := false }

/-- An open pool mixing one staked and one unstaked prediction. -/
def poolMixedC4 : Pool :=
  { id := "p4", title := "mixed open", totalStake := 1, deadline := 0,
    outcomeValue := none, isResolved := false,
    predictions := [predStakedC4, predNoStakeC4] }

/-- A single staked exact-match prediction, for the conservation check. -/
def predC1W : Prediction :=
  { id := "pc1-a", userWalletAddress := "w1", predictionValue := "yes",
    stakeAmount := 1, claimableReward := none, claimed := false }

/-- The open pool owning `predC1W`, with matching `totalStake`. -/
def poolC1W : Pool :=
  { id := "pc1", title := "single staked", totalStake := 1, deadline := 0,
    outcomeValue := none, isResolved := false, predictions := [predC1W] }

/-- An open pool with one staked prediction, the race-scenario fixture. -/
def poolRaceC9 : Pool :=
  { id := "pr9", title := "raced", totalStake := 1, deadline := 0,
    outcomeValue := none, isResolved := false,
    predictions :=
      [ { id := "pr9-a", userWalletAddress := "w9", predictionValue := "yes",
          stakeAmount := 1, claimableReward := none, claimed := false } ] }

end Prognos

namespace Prognos

/-! ## Helper lemmas -/

theorem scoreOfJS_num (p o : ℚ) (quad : Bool) :
    scoreOfJS (.num p) o quad = .num (scoreQ p o quad) := rfl

theorem calculateScore_pos (p o : ℚ) : 0 < calculateScore p o := by
  unfold calculateScore
  have h : (0:ℚ) < |p - o| + 1 := by positivity
  exact one_div_pos.mpr h

theorem calculateQuadraticScore_pos (p o : ℚ) : 0 < calculateQuadraticScore p o := by
  unfold calculateQuadraticScore
  have h : (0:ℚ) < |p - o| * |p - o| + 1 := by positivity
  exact one_div_pos.mpr h

theorem scoreQ_pos (p o : ℚ) (quad : Bool) : 0 < scoreQ p o quad := by
  unfold scoreQ
  cases quad <;> simp [calculateScore_pos, calculateQuadraticScore_pos]

theorem findPool_updatePool (db : DB) (pid : String) (f : Pool → Pool)
    (hid : ∀ pl, (f pl).id = pl.id) :
    findPool (updatePool db pid f) pid = (findPool db pid).map f := by
  induction db with
  | nil => rfl
  | cons hd tl ih =>
    by_cases h : hd.id = pid
    · have hb : (hd.id == pid) = true := beq_iff_eq.mpr h
      have hb2 : ((f hd).id == pid) = true := beq_iff_eq.mpr (by rw [hid hd]; exact h)
      simp [findPool, updatePool, List.find?, hb, hb2]
    · have hb : (hd.id == pid) = false := beq_eq_false_iff_ne.mpr h
      simpa [findPool, updatePool, List.find?, hb] using ih

theorem findPool_mapDB (db : DB) (pid : String) (f : Pool → Pool)
    (hid : ∀ pl, (f pl).id = pl.id) :
    findPool (db.map f) pid = (findPool db pid).map f := by
  induction db with
  | nil => rfl
  | cons hd tl ih =>
    by_cases h : hd.id = pid
    · have hb : (hd.id == pid) = true := beq_iff_eq.mpr h
      have hb2 : ((f hd).id == pid) = true := beq_iff_eq.mpr (by rw [hid hd]; exact h)
      simp [findPool, List.find?, hb, hb2]
    · have hb : (hd.id == pid) = false := beq_eq_false_iff_ne.mpr h
      have hb2 : ((f hd).id == pid) = false := beq_eq_false_iff_ne.mpr (by rw [hid hd]; exact h)
      simpa [findPool, List.find?, hb, hb2] using ih

theorem resolveStaked_eq (predictions : List Prediction) (ov : ℚ) (quad : Bool) :
    resolveStaked predictions ov quad =
      (((stakedOf predictions).map (fun p => (entryOf ov quad p).weighted)).foldl jsAdd (.num 0),
        (stakedOf predictions).map (entryOf ov quad)) := by
  have go : ∀ (l : List Prediction) (t : JSNum) (racc : List PredictionResult),
      l.foldl
        (fun acc p =>
          if p.stakeAmount ≤ 0 then acc
          else
            let np := parseNumericPrediction p.predictionValue
            let score := scoreOfJS np ov quad
            let weighted := jsMulPos score p.stakeAmount
            (jsAdd acc.1 weighted, acc.2 ++ [⟨p, score, weighted⟩]))
        (t, racc) =
      (((stakedOf l).map (fun p => (entryOf ov quad p).weighted)).foldl jsAdd t,
        racc ++ (stakedOf l).map (entryOf ov quad)) := by
    intro l
    induction l with
    | nil => intro t racc; simp [stakedOf]
    | cons hd tl ih =>
      intro t racc
      by_cases h : hd.stakeAmount ≤ 0
      · have hf : (decide (0 < hd.stakeAmount)) = false := by
          simpa using not_lt.mpr h
        simp only [List.foldl_cons, if_pos h, stakedOf, List.filter_cons, hf]
        exact ih t racc
      · have hf : (decide (0 < hd.stakeAmount)) = true := by
          simpa using not_le.mp h
        simp only [List.foldl_cons, if_neg h, stakedOf, List.filter_cons, hf]
        rw [ih]
        simp [stakedOf, entryOf, List.append_assoc]
  simpa [resolveStaked] using go predictions (.num 0) []

theorem foldl_jsAdd_num (l : List ℚ) : ∀ t : ℚ,
    (l.map JSNum.num).foldl jsAdd (.num t) = .num (t + l.sum) := by
  induction l with
  | nil => intro t; simp
  | cons a l ih =>
    intro t
    simp only [List.map_cons, List.foldl_cons, jsAdd, List.sum_cons]
    rw [ih]
    ring_nf

theorem foldl_update_eq_map (t S : ℚ) (results : List PredictionResult) :
    ∀ preds : List Prediction,
      results.foldl
        (fun acc r =>
          match r.weighted with
          | JSNum.num w => updateReward acc r.prediction.id ((w / t) * S)
          | _ => acc)
        preds =
      preds.map (fun p => results.foldl (fun q r => rewardUpd t S r q) p) := by
  induction results with
  | nil => intro preds; simp
  | cons r rs ih =>
    intro preds
    have hstep :
        (match r.weighted with
          | JSNum.num w => updateReward preds r.prediction.id ((w / t) * S)
          | _ => preds) = preds.map (rewardUpd t S r) := by
      cases hw : r.weighted with
      | num w => simp [rewardUpd, hw, updateReward]
      | nan =>
        have hfun : rewardUpd t S r = fun p => p := funext fun p => by simp [rewardUpd, hw]
        simp [hfun]
      | inf =>
        have hfun : rewardUpd t S r = fun p => p := funext fun p => by simp [rewardUpd, hw]
        simp [hfun]
      | ninf =>
        have hfun : rewardUpd t S r = fun p => p := funext fun p => by simp [rewardUpd, hw]
        simp [hfun]
    simp only [List.foldl_cons]
    rw [hstep, ih, List.map_map]
    apply List.map_congr_left
    intro p _
    simp [Function.comp]

theorem rewardUpd_ne (t S : ℚ) (r : PredictionResult) (p : Prediction)
    (h : r.prediction.id ≠ p.id) : rewardUpd t S r p = p := by
  cases hw : r.weighted <;> simp [rewardUpd, hw]
  intro he
  exact absurd he.symm h

theorem foldl_rewardUpd_ne (t S : ℚ) (rs : List PredictionResult) (p : Prediction)
    (h : ∀ r ∈ rs, r.prediction.id ≠ p.id) :
    rs.foldl (fun q r => rewardUpd t S r q) p = p := by
  induction rs with
  | nil => rfl
  | cons r rs ih =>
    simp only [List.foldl_cons]
    rw [rewardUpd_ne t S r p (h r (List.mem_cons_self r rs))]
    exact ih (fun r' hr' => h r' (List.mem_cons_of_mem r hr'))

/-- C2: for the code's two scoring functions, with `d = |prediction − outcome|`:
the linear score is `1/(d+1)` and the quadratic score `1/(d²+1)`; both lie
in `(0,1]`, equal `1` exactly when the distance is `0`, and are strictly
decreasing in the distance. -/
theorem claim_C2_score_shape (p o : ℚ) :
    calculateScore p o = 1 / (|p - o| + 1) ∧
    calculateQuadraticScore p o = 1 / (|p - o| * |p - o| + 1) ∧
    0 < calculateScore p o ∧ calculateScore p o ≤ 1 ∧
    0 < calculateQuadraticScore p o ∧ calculateQuadraticScore p o ≤ 1 ∧
    (calculateScore p o = 1 ↔ |p - o| = 0) ∧
    (calculateQuadraticScore p o = 1 ↔ |p - o| = 0) ∧
    (∀ p' o' : ℚ, |p - o| < |p' - o'| →
      calculateScore p' o' < calculateScore p o ∧
      calculateQuadraticScore p' o' < calculateQuadraticScore p o) := by
  have hd : (0:ℚ) ≤ |p - o| := abs_nonneg _
  have h1 : (0:ℚ) < |p - o| + 1 := by linarith
  have h2 : (0:ℚ) < |p - o| * |p - o| + 1 := by positivity
  refine ⟨rfl, rfl, calculateScore_pos p o, ?_, calculateQuadraticScore_pos p o, ?_, ?_, ?_, ?_⟩
  · exact (div_le_one h1).mpr (by linarith)
  · have : (0:ℚ) ≤ |p - o| * |p - o| := mul_self_nonneg _
    exact (div_le_one h2).mpr (by linarith)
  · unfold calculateScore
    constructor
    · intro h
      rw [div_eq_iff h1.ne'] at h
      linarith
    · intro h; rw [h]; norm_num
  · unfold calculateQuadraticScore
    constructor
    · intro h
      rw [div_eq_iff h2.ne'] at h
      nlinarith [mul_self_nonneg (|p - o|)]
    · intro h; rw [h]; norm_num
  · intro p' o' hlt
    have hd' : (0:ℚ) ≤ |p' - o'| := abs_nonneg _
    constructor
    · unfold calculateScore
      exact one_div_lt_one_div_of_lt h1 (by linarith)
    · unfold calculateQuadraticScore
      have hsq : |p - o| * |p - o| < |p' - o'| * |p' - o'| := mul_self_lt_mul_self hd hlt
      exact one_div_lt_one_div_of_lt h2 (by linarith)

/-- Witness for C2 at concrete inputs: score of prediction 3 against
outcome 2 is 1/2, and moving to distance 3 strictly lowers the score. -/
theorem claim_C2_score_shape_witness :
    calculateScore 3 2 = 1/2 ∧ calculateScore 5 2 < calculateScore 3 2 := by
  have h := claim_C2_score_shape 3 2
  constructor
  · rw [h.1]
    rw [show |(3:ℚ) - 2| = 1 by rw [show (3:ℚ) - 2 = 1 by norm_num]; exact abs_one]
    norm_num
  · refine (h.2.2.2.2.2.2.2.2 5 2 ?_).1
    rw [show |(3:ℚ) - 2| = 1 by rw [show (3:ℚ) - 2 = 1 by norm_num]; exact abs_one]
    rw [show |(5:ℚ) - 2| = 3 by
      rw [show (5:ℚ) - 2 = 3 by norm_num]; exact abs_of_nonneg (by norm_num)]
    norm_num

/-- C3: `resolvePool` fails with a distinct error for each violated
precondition — `invalidOutcome` when the outcome lies outside `[0,100]`,
`notFound` when no pool with the id exists, `alreadyResolved` when the
pool is already resolved — each leaving the store untouched, and succeeds
when all three preconditions hold. -/
theorem claim_C3_distinct_errors (db : DB) (pid : String) (ov : ℚ) (quad : Bool) :
    ((ov < 0 ∨ 100 < ov) → resolvePool db pid ov quad = (.error .invalidOutcome, db)) ∧
    (0 ≤ ov → ov ≤ 100 → findPool db pid = none →
      resolvePool db pid ov quad = (.error .notFound, db)) ∧
    (∀ pool : Pool, 0 ≤ ov → ov ≤ 100 → findPool db pid = some pool →
      pool.isResolved = true →
      resolvePool db pid ov quad = (.error .alreadyResolved, db)) ∧
    (∀ pool : Pool, 0 ≤ ov → ov ≤ 100 → findPool db pid = some pool →
      pool.isResolved = false → (resolvePool db pid ov quad).1 = .ok ()) := by
  refine ⟨?_, ?_, ?_, ?_⟩
  · intro h
    simp [resolvePool, resolveReadPhase, if_pos h]
  · intro h0 h1 hf
    have hcond : ¬(ov < 0 ∨ 100 < ov) := by
      push_neg
      exact ⟨h0, h1⟩
    simp [resolvePool, resolveReadPhase, hcond, hf]
  · intro pool h0 h1 hf hres
    have hcond : ¬(ov < 0 ∨ 100 < ov) := by
      push_neg
      exact ⟨h0, h1⟩
    simp [resolvePool, resolveReadPhase, hcond, hf, hres]
  · intro pool h0 h1 hf hres
    have hcond : ¬(ov < 0 ∨ 100 < ov) := by
      push_neg
      exact ⟨h0, h1⟩
    simp [resolvePool, resolveReadPhase, hcond, hf, hres]

/-- Witness for C3: each failure observed at a concrete store, and a
successful resolution when all preconditions hold. -/
theorem claim_C3_distinct_errors_witness :
    resolvePool [] "missing" 150 false = (.error .invalidOutcome, []) ∧
    resolvePool [] "missing" 50 false = (.error .notFound, []) ∧
    resolvePool [poolResolvedW] "pw-res" 50 false = (.error .alreadyResolved, [poolResolvedW]) ∧
    (resolvePool [poolOpenW] "pw-open" 50 false).1 = .ok () := by
  refine ⟨?_, ?_, ?_, ?_⟩
  · exact (claim_C3_distinct_errors [] "missing" 150 false).1 (by norm_num)
  · exact (claim_C3_distinct_errors [] "missing" 50 false).2.1 (by norm_num) (by norm_num) rfl
  · exact (claim_C3_distinct_errors [poolResolvedW] "pw-res" 50 false).2.2.1 poolResolvedW
      (by norm_num) (by norm_num) (by simp [findPool, List.find?, poolResolvedW]) rfl
  · exact (claim_C3_distinct_errors [poolOpenW] "pw-open" 50 false).2.2.2 poolOpenW
      (by norm_num) (by norm_num) (by simp [findPool, List.find?, poolOpenW]) rfl

/-- C7: calling `resolvePool` on an already-resolved pool fails with
`alreadyResolved` and returns the store unchanged — every previously
stored `claimableReward`, the pool's `outcomeValue` and its `isResolved`
flag keep their prior values (the outcome must be in range, otherwise the
earlier range check fires first, likewise leaving the store unchanged). -/
theorem claim_C7_resolve_idempotent (db : DB) (pid : String) (ov : ℚ) (quad : Bool)
    (pool : Pool) (h0 : 0 ≤ ov) (h1 : ov ≤ 100)
    (hfind : findPool db pid = some pool) (hres : pool.isResolved = true) :
    resolvePool db pid ov quad = (.error .alreadyResolved, db) := by
  have hcond : ¬(ov < 0 ∨ 100 < ov) := by
    push_neg
    exact ⟨h0, h1⟩
  simp [resolvePool, resolveReadPhase, hcond, hfind, hres]

/-- Witness for C7: re-resolving a concrete resolved pool fails with
`alreadyResolved` and the stored reward of 3 survives verbatim. -/
theorem claim_C7_resolve_idempotent_witness :
    resolvePool [poolC7W] "pw7" 60 true = (.error .alreadyResolved, [poolC7W]) :=
  claim_C7_resolve_idempotent [poolC7W] "pw7" 60 true poolC7W
    (by norm_num) (by norm_num) (by simp [findPool, List.find?, poolC7W]) rfl

/-- C5 counterexample: on `"abc"` — neither `"yes"`, `"no"`, nor a
parseable number — the spec-side `normalize` demands an
`InvalidPredictionFormat` failure, but the code's `parseNumericPrediction`
does not fail: it returns the value `NaN`, which flows on into scoring. -/
theorem claim_C5_counterexample :
    normalizeSpec "abc" = .error .invalidPredictionFormat ∧
    parseNumericPrediction "abc" = .nan ∧
    ¬ normalizeMatchesSpecAt "abc" := by
  refine ⟨rfl, by decide, ?_⟩
  rintro ⟨q, hq, -⟩
  rw [show normalizeSpec "abc" = .error .invalidPredictionFormat from rfl] at hq
  exact Except.noConfusion hq

/-- C5 amended: `parseNumericPrediction` maps `"yes"` to 100 and `"no"`
to 0 case-insensitively and parses any other input with `parseFloat`
semantics, agreeing with the spec's `normalize` wherever the latter
succeeds; for an input that is none of these it returns the non-numeric
`parseFloat` result (`NaN`) instead of failing — the function is total
and no `InvalidPredictionFormat` failure exists in the code. -/
theorem claim_C5_normalize_amended (s : String) (q : ℚ) :
    (normalizeSpec s = .ok q → parseNumericPrediction s = .num q) ∧
    (normalizeSpec s = .error .invalidPredictionFormat →
      parseNumericPrediction s = jsParseFloat s ∧ ∀ r : ℚ, parseNumericPrediction s ≠ .num r) := by
  by_cases hy : jsToLowerCase s = "yes"
  · have h1 : normalizeSpec s = .ok 100 := by simp [normalizeSpec, hy]
    have h2 : parseNumericPrediction s = .num 100 := by simp [parseNumericPrediction, hy]
    constructor
    · intro h
      rw [h1] at h
      injection h with h'
      rw [h2, h']
    · intro h
      rw [h1] at h
      exact Except.noConfusion h
  · by_cases hn : jsToLowerCase s = "no"
    · have h1 : normalizeSpec s = .ok 0 := by simp [normalizeSpec, hy, hn]
      have h2 : parseNumericPrediction s = .num 0 := by simp [parseNumericPrediction, hy, hn]
      constructor
      · intro h
        rw [h1] at h
        injection h with h'
        rw [h2, h']
      · intro h
        rw [h1] at h
        exact Except.noConfusion h
    · have h2 : parseNumericPrediction s = jsParseFloat s := by
        simp [parseNumericPrediction, hy, hn]
      cases hj : jsParseFloat s with
      | num r =>
        have h1 : normalizeSpec s = .ok r := by simp [normalizeSpec, hy, hn, hj]
        constructor
        · intro h
          rw [h1] at h
          injection h with h'
          rw [h2, hj, h']
        · intro h
          rw [h1] at h
          exact Except.noConfusion h
      | nan =>
        have h1 : normalizeSpec s = .error .invalidPredictionFormat := by
          simp [normalizeSpec, hy, hn, hj]
        refine ⟨fun h => ?_, fun _ => ⟨h2.trans hj, fun r h => ?_⟩⟩
        · rw [h1] at h
          exact Except.noConfusion h
        · rw [h2, hj] at h
          exact JSNum.noConfusion h
      | inf =>
        have h1 : normalizeSpec s = .error .invalidPredictionFormat := by
          simp [normalizeSpec, hy, hn, hj]
        refine ⟨fun h => ?_, fun _ => ⟨h2.trans hj, fun r h => ?_⟩⟩
        · rw [h1] at h
          exact Except.noConfusion h
        · rw [h2, hj] at h
          exact JSNum.noConfusion h
      | ninf =>
        have h1 : normalizeSpec s = .error .invalidPredictionFormat := by
          simp [normalizeSpec, hy, hn, hj]
        refine ⟨fun h => ?_, fun _ => ⟨h2.trans hj, fun r h => ?_⟩⟩
        · rw [h1] at h
          exact Except.noConfusion h
        · rw [h2, hj] at h
          exact JSNum.noConfusion h

/-- Witness for the amended C5: the code agrees with a spec-side success
on `"42"`, and on the unparseable `"abc"` it returns the `parseFloat`
result rather than failing. -/
theorem claim_C5_normalize_amended_witness :
    parseNumericPrediction "42" = .num 42 ∧
    parseNumericPrediction "abc" = jsParseFloat "abc" := by
  constructor
  · refine (claim_C5_normalize_amended "42" 42).1 ?_
    have h1 : jsToLowerCase "42" ≠ "yes" := by decide
    have h2 : jsToLowerCase "42" ≠ "no" := by decide
    simp [normalizeSpec, jsParseFloat, parseMantissa, leadingDigits, digitsToNat,
      parseExponent, isJsWhitespace, h1, h2]
  · exact ((claim_C5_normalize_amended "abc" 0).2 rfl).1

/-- C6 counterexample: on a resolved pool, an unclaimed prediction with a
positive stored `claimableReward` but no stake is rejected with the
fifth reason `"No stake amount to claim"` — an outcome the claim's
four-reason list does not admit, instead of being claimable. -/
theorem claim_C6_counterexample :
    checkClaimability [poolC6] "pool6" "w6" = .cannot "No stake amount to claim" ∧
    checkClaimability [poolC6] "pool6" "w6" ≠ .canClaim 7 ∧
    checkClaimability [poolC6] "pool6" "w6" ≠ .cannot "No prediction found for this user and pool" ∧
    checkClaimability [poolC6] "pool6" "w6" ≠ .cannot "Pool is not yet resolved" ∧
    checkClaimability [poolC6] "pool6" "w6" ≠ .cannot "Rewards already claimed" ∧
    checkClaimability [poolC6] "pool6" "w6" ≠ .cannot "No rewards available" := by
  refine ⟨by decide, by decide, by decide, by decide, by decide, by decide⟩

/-- C6 amended: `checkClaimability` returns exactly one of five refusals
or success — no prediction for the pair; pool unresolved; already
claimed; *no stake amount* (the guard the claim omits: an unstaked
prediction is refused even with a positive stored reward); reward absent
or ≤ 0 — and otherwise `canClaim` with the stored amount. -/
theorem claim_C6_checkClaim_cases (db : DB) (pid w : String) :
    (findPrediction db pid w = none →
      checkClaimability db pid w = .cannot "No prediction found for this user and pool") ∧
    (∀ pl p, findPrediction db pid w = some (pl, p) → pl.isResolved = false →
      checkClaimability db pid w = .cannot "Pool is not yet resolved") ∧
    (∀ pl p, findPrediction db pid w = some (pl, p) → pl.isResolved = true →
      p.claimed = true →
      checkClaimability db pid w = .cannot "Rewards already claimed") ∧
    (∀ pl p, findPrediction db pid w = some (pl, p) → pl.isResolved = true →
      p.claimed = false → p.stakeAmount ≤ 0 →
      checkClaimability db pid w = .cannot "No stake amount to claim") ∧
    (∀ pl p, findPrediction db pid w = some (pl, p) → pl.isResolved = true →
      p.claimed = false → 0 < p.stakeAmount → p.claimableReward = none →
      checkClaimability db pid w = .cannot "No rewards available") ∧
    (∀ pl p r, findPrediction db pid w = some (pl, p) → pl.isResolved = true →
      p.claimed = false → 0 < p.stakeAmount → p.claimableReward = some r → r ≤ 0 →
      checkClaimability db pid w = .cannot "No rewards available") ∧
    (∀ pl p r, findPrediction db pid w = some (pl, p) → pl.isResolved = true →
      p.claimed = false → 0 < p.stakeAmount → p.claimableReward = some r → 0 < r →
      checkClaimability db pid w = .canClaim r) := by
  refine ⟨?_, ?_, ?_, ?_, ?_, ?_, ?_⟩
  · intro h
    simp [checkClaimability, h]
  · intro pl p h hres
    simp [checkClaimability, h, hres]
  · intro pl p h hres hcl
    simp [checkClaimability, h, hres, hcl]
  · intro pl p h hres hcl hstake
    simp [checkClaimability, h, hres, hcl, if_pos hstake]
  · intro pl p h hres hcl hstake hr
    simp [checkClaimability, h, hres, hcl, if_neg (not_le.mpr hstake), hr]
  · intro pl p r h hres hcl hstake hr hr0
    simp [checkClaimability, h, hres, hcl, if_neg (not_le.mpr hstake), hr, if_pos hr0]
  · intro pl p r h hres hcl hstake hr hr0
    simp [checkClaimability, h, hres, hcl, if_neg (not_le.mpr hstake), hr,
      if_neg (not_le.mpr hr0)]

/-- Witness for the amended C6: a staked, unclaimed prediction with a
positive stored reward on a resolved pool is claimable for that amount. -/
theorem claim_C6_checkClaim_cases_witness :
    checkClaimability [poolClaimableC6] "pool6c" "w6c" = .canClaim 5 := by
  refine (claim_C6_checkClaim_cases [poolClaimableC6] "pool6c" "w6c").2.2.2.2.2.2
    poolClaimableC6 predClaimableC6 5 (by decide) rfl rfl (by decide) rfl (by decide)

/-- C9: the code's `resolvePool` takes no lock and runs in the
read-validate-then-write pattern, so in the interleaving where both
concurrent calls execute their validation read before either call's
writes land, *both* calls succeed — neither observes `AlreadyResolved`,
contradicting the exactly-one-succeeds requirement.  (All claim-relevant
validation and rewards are as in the sequential run; the failing input is
the concrete one-prediction open pool below with two concurrent
`resolvePool(pr9, 50, linear)` calls.) -/
theorem claim_C9_race_both_succeed :
    (resolvePoolRaced [poolRaceC9] "pr9" 50 false).1 = .ok () ∧
    (resolvePoolRaced [poolRaceC9] "pr9" 50 false).2.1 = .ok () ∧
    (resolvePoolRaced [poolRaceC9] "pr9" 50 false).2.1 ≠ .error .alreadyResolved ∧
    (resolvePool [poolRaceC9] "pr9" 50 false).1 = .ok () := by
  have hok : (resolvePoolRaced [poolRaceC9] "pr9" 50 false).2.1 = .ok () := rfl
  refine ⟨rfl, hok, ?_, rfl⟩
  intro hc
  rw [hok] at hc
  exact Except.noConfusion hc

/-- C8: for a nonempty prediction list whose values all normalise to
numbers, the scheduler's fallback outcome is the weighted average of the
normalised predictions with per-prediction weight `max(stakeAmount, 1)`
— unstaked votes carry weight 1, not 0 — rounded half-up and clamped to
`[0,100]`. -/
theorem claim_C8_fallback_outcome (ps : List Prediction) (val : Prediction → ℚ) (coin : Bool)
    (hne : ps ≠ [])
    (hval : ∀ p ∈ ps, parseNumericPrediction p.predictionValue = .num (val p)) :
    calculateAutomaticOutcome ps coin =
      .num (max 0 (min 100
        ((⌊(ps.map (fun p => val p * max p.stakeAmount 1)).sum /
            (ps.map (fun p => max p.stakeAmount 1)).sum + 1/2⌋ : ℤ) : ℚ))) := by
  have hgo : ∀ l : List Prediction,
      (∀ p ∈ l, parseNumericPrediction p.predictionValue = .num (val p)) →
      ∀ a t : ℚ,
      l.foldl
        (fun (acc : ℚ × JSNum) p =>
          let np := parseNumericPrediction p.predictionValue
          let weight := max p.stakeAmount 1
          (acc.1 + weight, jsAdd acc.2 (jsMulPos np weight)))
        (a, .num t) =
      (a + (l.map (fun p => max p.stakeAmount 1)).sum,
        .num (t + (l.map (fun p => val p * max p.stakeAmount 1)).sum)) := by
    intro l
    induction l with
    | nil =>
      intro _ a t
      simp
    | cons hd tl ih =>
      intro hv a t
      have hhd := hv hd (List.mem_cons_self hd tl)
      have hmul : jsMulPos (.num (val hd)) (max hd.stakeAmount 1) =
          .num (val hd * max hd.stakeAmount 1) := rfl
      have hadd : jsAdd (.num t) (.num (val hd * max hd.stakeAmount 1)) =
          .num (t + val hd * max hd.stakeAmount 1) := rfl
      simp only [List.foldl_cons, hhd, hmul, hadd]
      rw [ih (fun p hp => hv p (List.mem_cons_of_mem hd hp))]
      simp only [List.map_cons, List.sum_cons, Prod.mk.injEq, JSNum.num.injEq]
      constructor <;> ring
  have hne' : ps.isEmpty = false := by
    cases ps with
    | nil => exact absurd rfl hne
    | cons a l => rfl
  unfold calculateAutomaticOutcome
  rw [hne']
  simp only [Bool.false_eq_true, if_false]
  rw [hgo ps hval 0 0]
  simp [jsDivPos, jsRound, jsClamp0to100]

/-- Witness for C8: a single unstaked `"yes"` vote gets weight 1 (not 0)
and drives the fallback outcome to 100. -/
theorem claim_C8_fallback_outcome_witness :
    calculateAutomaticOutcome [predVoteC8] true = .num 100 := by
  have h := claim_C8_fallback_outcome [predVoteC8] (fun _ => 100) true (by simp)
    (by
      intro p hp
      have hp' : p = predVoteC8 := by simpa using hp
      subst hp'
      decide)
  rw [h]
  have hmax : max (0:ℚ) 1 = 1 := by norm_num [max_def]
  have hfl : (⌊(100:ℚ) * 1 / 1 + 1/2⌋ : ℤ) = 100 := by
    rw [Int.floor_eq_iff]
    norm_num
  simp [predVoteC8, hmax, hfl]
  norm_num [max_def, min_def]

/-- C10: `getRewardSummary` sees only `stakeAmount > 0` predictions (the
Prisma `where` filter): its result is unchanged when every unstaked
prediction is deleted from the store, and every entry of its
per-prediction breakdown carries a positive stake — so an unstaked
prediction is omitted even when it holds a `claimableReward`, and
`totalWeightedScore` likewise ranges over the staked predictions only. -/
theorem claim_C10_summary_staked_only :
    (∀ (db : DB) (pid : String),
      getRewardSummary
        (db.map (fun pl =>
          { pl with predictions := pl.predictions.filter (fun p => decide (0 < p.stakeAmount)) }))
        pid = getRewardSummary db pid) ∧
    (∀ (db : DB) (pid : String) (ov S : ℚ)
      (entries : List SummaryEntry) (tws : JSNum),
      getRewardSummary db pid = .resolved ov S entries tws →
      ∀ e ∈ entries, 0 < e.stakeAmount) := by
  have hff : ∀ l : List Prediction,
      (l.filter (fun p => decide (0 < p.stakeAmount))).filter
          (fun p => decide (0 < p.stakeAmount)) =
        l.filter (fun p => decide (0 < p.stakeAmount)) := by
    intro l
    rw [List.filter_filter]
    exact List.filter_congr fun x _ => Bool.and_self _
  constructor
  · intro db pid
    have hid : ∀ pl : Pool,
        ({ pl with
          predictions := pl.predictions.filter (fun p => decide (0 < p.stakeAmount)) } : Pool).id
          = pl.id := fun pl => rfl
    rw [getRewardSummary, getRewardSummary, findPool_mapDB db pid _ hid]
    cases hf : findPool db pid with
    | none => rfl
    | some pool => simp [hff]
  · intro db pid ov S entries tws h
    rw [getRewardSummary] at h
    cases hf : findPool db pid with
    | none =>
      rw [hf] at h
      exact absurd h (by simp)
    | some pool =>
      rw [hf] at h
      by_cases hres : pool.isResolved
      · cases ho : pool.outcomeValue with
        | none =>
          simp [hres, ho] at h
        | some ov' =>
          simp only [hres, ho, Bool.not_true, Bool.false_eq_true, if_false,
            SummaryResult.resolved.injEq] at h
          obtain ⟨-, -, hent, -⟩ := h
          intro e he
          rw [← hent] at he
          obtain ⟨p, hp, rfl⟩ := List.mem_map.mp he
          have hps := (List.mem_filter.mp hp).2
          have : 0 < p.stakeAmount := by simpa using hps
          simpa [summaryEntry] using this
      · simp [hres] at h

/-- Witness for C10: on a resolved pool holding one staked and one
unstaked prediction, the returned breakdown is exactly the staked entry
(the unstaked one is omitted despite its stored reward of 9), and that
entry's stake is positive. -/
theorem claim_C10_summary_staked_only_witness :
    0 < (summaryEntry 100 predStakedC10).stakeAmount := by
  have heval : getRewardSummary [poolMixedC10] "p10" =
      .resolved 100 2 [summaryEntry 100 predStakedC10] (.num 2) := by
    have h1 : parseNumericPrediction "yes" = .num 100 := by decide
    simp [getRewardSummary, findPool, List.find?, poolMixedC10, predStakedC10, predNoStakeC10,
      h1, scoreOfJS, jsMulPos, jsAdd, calculateScore]
  exact claim_C10_summary_staked_only.2 [poolMixedC10] "p10" 100 2
    [summaryEntry 100 predStakedC10] (.num 2) heval
    (summaryEntry 100 predStakedC10) (List.mem_singleton_self _)

theorem foldl_rewardUpd_set (t S w : ℚ) (rs1 rs2 : List PredictionResult)
    (r0 : PredictionResult) (p : Prediction)
    (hid : r0.prediction.id = p.id) (hw : r0.weighted = .num w)
    (h1 : ∀ r ∈ rs1, r.prediction.id ≠ p.id)
    (h2 : ∀ r ∈ rs2, r.prediction.id ≠ p.id) :
    (rs1 ++ r0 :: rs2).foldl (fun q r => rewardUpd t S r q) p =
      { p with claimableReward := some ((w / t) * S) } := by
  rw [List.foldl_append, foldl_rewardUpd_ne t S rs1 p h1, List.foldl_cons]
  have hset : rewardUpd t S r0 p = { p with claimableReward := some ((w / t) * S) } := by
    simp [rewardUpd, hw, hid]
  rw [hset]
  exact foldl_rewardUpd_ne t S rs2 _ (fun r hr => h2 r hr)

theorem applyRewards_num_pos (preds : List Prediction) (results : List PredictionResult)
    (t S : ℚ) (ht : 0 < t) :
    applyRewards preds results (.num t) S =
      preds.map (fun p => results.foldl (fun q r => rewardUpd t S r q) p) := by
  have hgt : jsGtZero (.num t) = true := by simp [jsGtZero, ht]
  unfold applyRewards
  rw [if_pos hgt]
  exact foldl_update_eq_map t S results preds

theorem findPool_resolveWritePhase (db : DB) (pid : String) (ov : ℚ) (quad : Bool)
    (pool : Pool) (hfind : findPool db pid = some pool)
    (hne : pool.predictions.isEmpty = false) :
    findPool (resolveWritePhase db pool pid ov quad) pid =
      some { pool with
        predictions :=
          applyRewards pool.predictions
            ((stakedOf pool.predictions).map (entryOf ov quad))
            (((stakedOf pool.predictions).map (fun p => (entryOf ov quad p).weighted)).foldl
              jsAdd (.num 0))
            pool.totalStake,
        outcomeValue := some ov, isResolved := true } := by
  unfold resolveWritePhase
  rw [hne]
  simp only [Bool.false_eq_true, if_false, resolveStaked_eq]
  rw [findPool_updatePool _ _ _ (by intro pl; exact rfl),
    findPool_updatePool _ _ _ (by intro pl; exact rfl), hfind]
  rfl

theorem applyRewards_unstaked_mem (preds : List Prediction) (ov : ℚ) (quad : Bool)
    (tw : JSNum) (S : ℚ)
    (hids : (preds.map Prediction.id).Nodup)
    (p : Prediction) (hp : p ∈ preds) (hs : p.stakeAmount ≤ 0) :
    p ∈ applyRewards preds ((stakedOf preds).map (entryOf ov quad)) tw S := by
  have hne_ids : ∀ r ∈ (stakedOf preds).map (entryOf ov quad), r.prediction.id ≠ p.id := by
    intro r hr
    obtain ⟨q, hq, rfl⟩ := List.mem_map.mp hr
    have hqf := List.mem_filter.mp hq
    have hqs : 0 < q.stakeAmount := by simpa using hqf.2
    intro hidq
    have hq_eq : q = p := List.inj_on_of_nodup_map hids hqf.1 hp hidq
    rw [hq_eq] at hqs
    exact absurd hqs (not_lt.mpr hs)
  unfold applyRewards
  by_cases hgt : jsGtZero tw = true
  · rw [if_pos hgt]
    cases tw with
    | num t =>
      show p ∈ List.foldl
        (fun acc r =>
          match r.weighted with
          | JSNum.num w => updateReward acc r.prediction.id ((w / t) * S)
          | _ => acc)
        preds ((stakedOf preds).map (entryOf ov quad))
      rw [foldl_update_eq_map]
      have hfix :
          ((stakedOf preds).map (entryOf ov quad)).foldl (fun q r => rewardUpd t S r q) p = p :=
        foldl_rewardUpd_ne t S _ p hne_ids
      have hmem := List.mem_map_of_mem
        (fun p' => ((stakedOf preds).map (entryOf ov quad)).foldl (fun q r => rewardUpd t S r q) p')
        hp
      simpa only [hfix] using hmem
    | nan => exact hp
    | inf => exact hp
    | ninf => exact hp
  · rw [if_neg hgt]
    exact hp

/-- C4: when `resolvePool` resolves a pool, every prediction with
`stakeAmount ≤ 0` survives in the store completely unchanged — in
particular its `claimableReward` stays absent/at its prior value; the
scoring loop skips unstaked rows and the reward writes touch only staked
prediction ids (prediction ids are unique, they are the table's primary
key). -/
theorem claim_C4_unstaked_unchanged (db : DB) (pid : String) (ov : ℚ) (quad : Bool)
    (pool : Pool) (h0 : 0 ≤ ov) (h1 : ov ≤ 100)
    (hfind : findPool db pid = some pool) (hres : pool.isResolved = false)
    (hids : (pool.predictions.map Prediction.id).Nodup) :
    (resolvePool db pid ov quad).1 = .ok () ∧
    ∃ pool' : Pool, findPool (resolvePool db pid ov quad).2 pid = some pool' ∧
      pool'.isResolved = true ∧
      ∀ p ∈ pool.predictions, p.stakeAmount ≤ 0 → p ∈ pool'.predictions := by
  have hcond : ¬(ov < 0 ∨ 100 < ov) := by
    push_neg
    exact ⟨h0, h1⟩
  have hread : resolveReadPhase db pid ov = .ok pool := by
    simp [resolveReadPhase, hcond, hfind, hres]
  have hrp : resolvePool db pid ov quad = (.ok (), resolveWritePhase db pool pid ov quad) := by
    simp [resolvePool, hread]
  rw [hrp]
  refine ⟨rfl, ?_⟩
  by_cases hemp : pool.predictions.isEmpty
  · refine ⟨{ pool with outcomeValue := some ov, isResolved := true }, ?_, rfl, ?_⟩
    · show findPool (resolveWritePhase db pool pid ov quad) pid = _
      unfold resolveWritePhase
      rw [if_pos hemp, findPool_updatePool _ _ _ (by intro pl; exact rfl), hfind]
      rfl
    · intro p hp _
      exact hp
  · have hemp' : pool.predictions.isEmpty = false := by
      simpa using hemp
    refine ⟨_, findPool_resolveWritePhase db pid ov quad pool hfind hemp', rfl, ?_⟩
    intro p hp hs
    exact applyRewards_unstaked_mem pool.predictions ov quad _ pool.totalStake hids p hp hs

/-- C1: for a pool where every prediction is staked (and every value
normalises to a number — the data model's `"yes"`/`"no"`/numeric-string
format), `resolvePool` succeeds, writes each prediction the reward
`(weighted / totalWeighted) × totalStake` with
`weighted = score × stakeAmount`, and those rewards sum exactly to
`pool.totalStake` in exact arithmetic. -/
theorem claim_C1_prorata_conservation (db : DB) (pid : String) (ov : ℚ) (quad : Bool)
    (pool : Pool) (val : Prediction → ℚ)
    (h0 : 0 ≤ ov) (h1 : ov ≤ 100)
    (hfind : findPool db pid = some pool) (hres : pool.isResolved = false)
    (hne : pool.predictions ≠ [])
    (hstaked : ∀ p ∈ pool.predictions, 0 < p.stakeAmount)
    (hval : ∀ p ∈ pool.predictions, parseNumericPrediction p.predictionValue = .num (val p))
    (hids : (pool.predictions.map Prediction.id).Nodup) :
    (resolvePool db pid ov quad).1 = .ok () ∧
    findPool (resolvePool db pid ov quad).2 pid =
      some { pool with
        predictions := pool.predictions.map (fun p =>
          { p with
            claimableReward :=
              some (scoreQ (val p) ov quad * p.stakeAmount /
              (pool.predictions.map (fun q => scoreQ (val q) ov quad * q.stakeAmount)).sum *
              pool.totalStake) }),
        outcomeValue := some ov, isResolved := true } ∧
    (pool.predictions.map (fun p =>
      scoreQ (val p) ov quad * p.stakeAmount /
        (pool.predictions.map (fun q => scoreQ (val q) ov quad * q.stakeAmount)).sum *
        pool.totalStake)).sum = pool.totalStake := by
  have hcond : ¬(ov < 0 ∨ 100 < ov) := by
    push_neg
    exact ⟨h0, h1⟩
  have hread : resolveReadPhase db pid ov = .ok pool := by
    simp [resolveReadPhase, hcond, hfind, hres]
  have hrp : resolvePool db pid ov quad = (.ok (), resolveWritePhase db pool pid ov quad) := by
    simp [resolvePool, hread]
  have hemp : pool.predictions.isEmpty = false := by
    cases hpp : pool.predictions with
    | nil => exact absurd hpp hne
    | cons a l => rfl
  have hstakedOf : stakedOf pool.predictions = pool.predictions := by
    unfold stakedOf
    apply List.filter_eq_self.mpr
    intro p hp
    simpa using hstaked p hp
  have hTpos : 0 < (pool.predictions.map (fun q => scoreQ (val q) ov quad * q.stakeAmount)).sum := by
    apply List.sum_pos
    · intro x hx
      obtain ⟨p, hp, rfl⟩ := List.mem_map.mp hx
      exact mul_pos (scoreQ_pos (val p) ov quad) (hstaked p hp)
    · intro hmapnil
      exact hne (by simpa using hmapnil)
  have hwlist : (pool.predictions.map (fun p => (entryOf ov quad p).weighted))
      = (pool.predictions.map (fun q => scoreQ (val q) ov quad * q.stakeAmount)).map JSNum.num := by
    rw [List.map_map]
    apply List.map_congr_left
    intro p hp
    show (entryOf ov quad p).weighted = JSNum.num (scoreQ (val p) ov quad * p.stakeAmount)
    unfold entryOf
    rw [hval p hp]
    rfl
  have hfp := findPool_resolveWritePhase db pid ov quad pool hfind hemp
  rw [hstakedOf, hwlist, foldl_jsAdd_num, zero_add] at hfp
  have happ : applyRewards pool.predictions (pool.predictions.map (entryOf ov quad))
      (.num ((pool.predictions.map (fun q => scoreQ (val q) ov quad * q.stakeAmount)).sum))
      pool.totalStake
      = pool.predictions.map (fun p =>
          { p with
            claimableReward :=
              some (scoreQ (val p) ov quad * p.stakeAmount /
              (pool.predictions.map (fun q => scoreQ (val q) ov quad * q.stakeAmount)).sum *
              pool.totalStake) }) := by
    rw [applyRewards_num_pos _ _ _ _ hTpos]
    apply List.map_congr_left
    intro p hp
    show (pool.predictions.map (entryOf ov quad)).foldl
        (fun q r => rewardUpd ((pool.predictions.map
          (fun q => scoreQ (val q) ov quad * q.stakeAmount)).sum) pool.totalStake r q) p
      = { p with
          claimableReward :=
            some (scoreQ (val p) ov quad * p.stakeAmount /
              (pool.predictions.map (fun q => scoreQ (val q) ov quad * q.stakeAmount)).sum *
              pool.totalStake) }
    obtain ⟨l1, l2, hsplit⟩ := List.append_of_mem hp
    have hids' := hids
    rw [hsplit, List.map_append, List.map_cons] at hids'
    have hd12 := List.nodup_append.mp hids'
    have hpid_l1 : ∀ q ∈ l1, q.id ≠ p.id := by
      intro q hq heq
      exact hd12.2.2 (List.mem_map_of_mem Prediction.id hq)
        (by rw [heq]; exact List.mem_cons_self _ _)
    have hpid_l2 : ∀ q ∈ l2, q.id ≠ p.id := by
      intro q hq heq
      have hn := (List.nodup_cons.mp hd12.2.1).1
      exact hn (by rw [← heq]; exact List.mem_map_of_mem Prediction.id hq)
    have hw : (entryOf ov quad p).weighted =
        JSNum.num (scoreQ (val p) ov quad * p.stakeAmount) := by
      unfold entryOf
      rw [hval p hp]
      rfl
    generalize (pool.predictions.map (fun q => scoreQ (val q) ov quad * q.stakeAmount)).sum = T
    rw [hsplit, List.map_append, List.map_cons]
    apply foldl_rewardUpd_set
    · rfl
    · exact hw
    · intro r hr
      obtain ⟨q, hq, rfl⟩ := List.mem_map.mp hr
      exact hpid_l1 q hq
    · intro r hr
      obtain ⟨q, hq, rfl⟩ := List.mem_map.mp hr
      exact hpid_l2 q hq
  rw [hrp]
  refine ⟨rfl, ?_, ?_⟩
  · show findPool (resolveWritePhase db pool pid ov quad) pid = _
    rw [hfp, happ]
  · have hfun : (fun p => scoreQ (val p) ov quad * p.stakeAmount /
        (pool.predictions.map (fun q => scoreQ (val q) ov quad * q.stakeAmount)).sum *
        pool.totalStake)
        = (fun p => (scoreQ (val p) ov quad * p.stakeAmount) *
            (pool.totalStake /
              (pool.predictions.map (fun q => scoreQ (val q) ov quad * q.stakeAmount)).sum)) := by
      funext p
      ring
    rw [hfun,
      List.sum_map_mul_right pool.predictions
        (fun q => scoreQ (val q) ov quad * q.stakeAmount)
        (pool.totalStake /
          (pool.predictions.map (fun q => scoreQ (val q) ov quad * q.stakeAmount)).sum),
      mul_comm]
    exact div_mul_cancel₀ pool.totalStake hTpos.ne'

/-- Witness for C1: resolving the one-prediction pool writes that
prediction the whole `totalStake` of 1 as its reward. -/
theorem claim_C1_prorata_conservation_witness :
    (resolvePool [poolC1W] "pc1" 100 false).1 = .ok () ∧
    findPool (resolvePool [poolC1W] "pc1" 100 false).2 "pc1" =
      some { poolC1W with
        predictions := [{ predC1W with claimableReward := some 1 }],
        outcomeValue := some 100, isResolved := true } := by
  obtain ⟨hok, hfind', hsum⟩ :=
    claim_C1_prorata_conservation [poolC1W] "pc1" 100 false poolC1W (fun _ => 100)
      (by norm_num) (by norm_num)
      (by simp [findPool, List.find?, poolC1W]) rfl
      (by simp [poolC1W])
      (by
        intro p hp
        have hp' : p = predC1W := by simpa [poolC1W] using hp
        subst hp'
        norm_num [predC1W])
      (by
        intro p hp
        have hp' : p = predC1W := by simpa [poolC1W] using hp
        subst hp'
        decide)
      (by decide)
  refine ⟨hok, ?_⟩
  rw [hfind']
  congr 1
  simp [poolC1W, predC1W, scoreQ, calculateScore]

/-- Witness for C4: resolving a concrete mixed pool succeeds and the
unstaked prediction `predNoStakeC4` — reward still absent — survives in
the resolved pool verbatim. -/
theorem claim_C4_unstaked_unchanged_witness :
    (resolvePool [poolMixedC4] "p4" 100 false).1 = .ok () ∧
    findPool (resolvePool [poolMixedC4] "p4" 100 false).2 "p4" =
      some { poolMixedC4 with
        predictions := [{ predStakedC4 with claimableReward := some 1 }, predNoStakeC4],
        outcomeValue := some 100, isResolved := true } ∧
    predNoStakeC4 ∈ ({ poolMixedC4 with
        predictions := [{ predStakedC4 with claimableReward := some 1 }, predNoStakeC4],
        outcomeValue := some 100, isResolved := true } : Pool).predictions := by
  obtain ⟨hok, pool', hfind', hres', hall⟩ :=
    claim_C4_unstaked_unchanged [poolMixedC4] "p4" 100 false poolMixedC4
      (by norm_num) (by norm_num)
      (by simp [findPool, List.find?, poolMixedC4]) rfl
      (by decide)
  have hyes : parseNumericPrediction "yes" = .num 100 := by decide
  have hc : ¬((100:ℚ) < 0 ∨ (100:ℚ) > 100) := by norm_num
  have hread : resolveReadPhase [poolMixedC4] "p4" 100 = .ok poolMixedC4 := by
    simp [resolveReadPhase, hc, findPool, List.find?, poolMixedC4]
  have hrp : resolvePool [poolMixedC4] "p4" 100 false =
      (.ok (), resolveWritePhase [poolMixedC4] poolMixedC4 "p4" 100 false) := by
    simp [resolvePool, hread]
  have hwp := findPool_resolveWritePhase [poolMixedC4] "p4" 100 false poolMixedC4
    (by simp [findPool, List.find?, poolMixedC4]) rfl
  have heval : findPool (resolvePool [poolMixedC4] "p4" 100 false).2 "p4" =
      some { poolMixedC4 with
        predictions := [{ predStakedC4 with claimableReward := some 1 }, predNoStakeC4],
        outcomeValue := some 100, isResolved := true } := by
    rw [hrp]
    rw [show (Except.ok (), resolveWritePhase [poolMixedC4] poolMixedC4 "p4" 100 false).2 =
      resolveWritePhase [poolMixedC4] poolMixedC4 "p4" 100 false from rfl]
    rw [hwp]
    congr 1
    simp [poolMixedC4, stakedOf, entryOf, hyes, scoreOfJS, jsMulPos, jsAdd, applyRewards,
      jsGtZero, updateReward, predStakedC4, predNoStakeC4, calculateScore]
  have hmem := hall predNoStakeC4 (by simp [poolMixedC4]) (by norm_num [predNoStakeC4])
  have hpp : pool' = { poolMixedC4 with
      predictions := [{ predStakedC4 with claimableReward := some 1 }, predNoStakeC4],
      outcomeValue := some 100, isResolved := true } :=
    Option.some.inj (hfind'.symm.trans heval)
  exact ⟨hok, heval, hpp ▸ hmem⟩

end Prognos
